import Mathlib

/-!
# MCP-C-SDK: the epoll server of `src/main.c`

A shallow embedding of `main.c`.  The program is a sequence of system calls, so the
embedding threads an explicit kernel state (`Kernel`) through every function of the
source: the descriptors the program has opened, the interest list of its one epoll
instance, the socket options it switched on, and the list of calls issued so far.

What a call returns when the operating system is free to choose (a new descriptor,
a failure, a byte count) is an input of the model (`Outcomes`, `SetupOutcomes`, the
schedule of `epoll_wait` answers); what the kernel decides from its own state
(`EBADF`, `EEXIST`, `ENOENT`) is computed.  Four choices of the kernel model matter
for the theorems:

* `socket`, `epoll_create1` and `accept` only hand out a descriptor that is not in use;
* `EPOLL_CTL_DEL` of a registered descriptor succeeds, while ADD and MOD may fail;
* `close` does not edit the interest list, so a registration disappears only through
  the `EPOLL_CTL_DEL` the program issues;
* `send` is called with flags 0 and the program never changes the disposition of
  `SIGPIPE`, so a `send` on a connection the peer has broken does not return: the signal
  terminates the process inside the call.  The branch stops there, and `terminated`
  records it; the other fields keep the values they had at that moment.

A terminated process consumes no further answer of the operating system, so in a run of
the program an answer that raises `SIGPIPE` is the last one of the schedule.  The loops
`for_events` and `epoll_loop` are total functions of the schedule and also give a value
to schedules that go on after such an answer; the theorems hold for every schedule, in
particular for those of the runs cut short inside `send`.

The `LOG` statements (lines 25-28) write to standard output and touch none of this state;
they are left out, and the trace lists the socket and epoll calls only.
-/

namespace MCP

/-! ## Constants of the system headers (Linux values) -/

/-- Readable interest, `<sys/epoll.h>`. -/
def EPOLLIN : Nat := 0x001
/-- Writable interest, `<sys/epoll.h>`. -/
def EPOLLOUT : Nat := 0x004
/-- Error condition, always reported, `<sys/epoll.h>`. -/
def EPOLLERR : Nat := 0x008
/-- Hang-up, always reported, `<sys/epoll.h>`. -/
def EPOLLHUP : Nat := 0x010
/-- Edge-triggered flag `1u << 31`, `<sys/epoll.h>`. -/
def EPOLLET : Nat := 0x80000000
def EPOLL_CTL_ADD : Nat := 1
def EPOLL_CTL_DEL : Nat := 2
def EPOLL_CTL_MOD : Nat := 3
def O_NONBLOCK : Int := 2048
def AF_INET : Nat := 2
def SOCK_STREAM : Nat := 1
def SOL_SOCKET : Nat := 1
def SO_REUSEADDR : Nat := 2
def SO_REUSEPORT : Nat := 15
def INADDR_ANY : Nat := 0
/-- Line 12 of `main.c`. -/
def MAX_EVENTS : Nat := 1024

/-! ## System calls and the kernel state -/

/-- One call issued by the program, with the arguments the source passes. -/
inductive Syscall where
  | socket (domain type protocol : Nat)
  | fcntl_getfl (fd : Int)
  | fcntl_setfl (fd : Int) (flags : Int)
  | setsockopt (fd : Int) (level optname : Nat) (optval : Int)
  | epoll_create1 (flags : Nat)
  | epoll_ctl (epfd : Int) (op : Nat) (fd : Int) (events : Option Nat)
  | bind (fd : Int) (addr port : Nat)
  | listen (fd : Int) (backlog : Nat)
  | epoll_wait (epfd : Int) (maxevents : Nat)
  | accept (fd : Int)
  | read (fd : Int) (count : Nat)
  | send (fd : Int) (buf : String) (len : Nat)
  | close (fd : Int)
  deriving DecidableEq, Repr

/-- The part of the operating system the program acts on. -/
structure Kernel where
  /-- Descriptors the program has obtained and not closed. -/
  openFds : List Int
  /-- Descriptor of the epoll instance, once `epoll_create1` has succeeded. -/
  epoll : Option Int
  /-- Interest list of the epoll instance: descriptor to registered event mask. -/
  reg : Int → Option Nat
  /-- Socket-level options switched on, as pairs (descriptor, option number). -/
  sockopts : List (Int × Nat)
  /-- Calls issued so far, oldest first. -/
  trace : List Syscall
  /-- The process has been terminated by a signal (set by `sys_send` on `SIGPIPE`).
  The other fields then describe the process at the moment the signal arrived. -/
  terminated : Bool

/-- Nothing opened, nothing registered, nothing called. -/
def Kernel.boot : Kernel :=
  { openFds := [], epoll := none, reg := fun _ => none, sockopts := [], trace := [],
    terminated := false }

def Kernel.log (k : Kernel) (c : Syscall) : Kernel :=
  { k with trace := k.trace ++ [c] }

def Kernel.setReg (k : Kernel) (fd : Int) (e : Option Nat) : Kernel :=
  { k with reg := fun x => if x = fd then e else k.reg x }

/-- A descriptor the kernel may hand out: non-negative and not in use. -/
def Kernel.fresh (k : Kernel) (fd : Int) : Bool :=
  decide (0 ≤ fd) && !(k.openFds.contains fd)

/-- The call `socket(domain, type, protocol)`: `cand` is the descriptor the kernel would
hand out; the call fails with -1 when `cand` is not a fresh descriptor. -/
def sys_socket (domain type protocol : Nat) (cand : Int) (k : Kernel) : Int × Kernel :=
  let k1 := k.log (.socket domain type protocol)
  if k.fresh cand then (cand, { k1 with openFds := cand :: k1.openFds }) else (-1, k1)

/-- The call `fcntl(fd, F_GETFL, 0)`: returns what the kernel reports. -/
def sys_fcntl_getfl (fd : Int) (ret : Int) (k : Kernel) : Int × Kernel :=
  (ret, k.log (.fcntl_getfl fd))

/-- The call `fcntl(fd, F_SETFL, flags)`: returns what the kernel reports. -/
def sys_fcntl_setfl (fd : Int) (flags : Int) (ret : Int) (k : Kernel) : Int × Kernel :=
  (ret, k.log (.fcntl_setfl fd flags))

/-- The call `setsockopt(fd, level, optname, &opt, sizeof opt)` with `opt = optval`: on
success (`ret = 0`) at socket level with a non-zero value it switches on exactly the
option whose number is `optname`. -/
def sys_setsockopt (fd : Int) (level optname : Nat) (optval : Int) (ret : Int)
    (k : Kernel) : Int × Kernel :=
  let k1 := k.log (.setsockopt fd level optname optval)
  if ret = 0 ∧ level = SOL_SOCKET ∧ optval ≠ 0 then
    (ret, { k1 with sockopts := (fd, optname) :: k1.sockopts })
  else (ret, k1)

/-- The call `epoll_create1(flags)`: `cand` as for `sys_socket`. -/
def sys_epoll_create1 (flags : Nat) (cand : Int) (k : Kernel) : Int × Kernel :=
  let k1 := k.log (.epoll_create1 flags)
  if k.fresh cand then
    (cand, { k1 with openFds := cand :: k1.openFds, epoll := some cand, reg := fun _ => none })
  else (-1, k1)

/-- The call `epoll_ctl(epfd, op, fd, &ev)` with `ev.events = events` (`none` for a NULL
pointer).  It fails when `epfd` is not the epoll instance, when `fd` is not open or is
the instance itself, on ADD of a registered descriptor, on MOD or DEL of an unregistered
one; ADD and MOD also fail when the kernel lacks resources (`ok = false`).  DEL of a
registered descriptor always succeeds. -/
def sys_epoll_ctl (epfd : Int) (op : Nat) (fd : Int) (events : Option Nat) (ok : Bool)
    (k : Kernel) : Int × Kernel :=
  let k1 := k.log (.epoll_ctl epfd op fd events)
  if k.epoll ≠ some epfd ∨ fd ∉ k.openFds ∨ fd = epfd then (-1, k1)
  else if op = EPOLL_CTL_ADD then
    match events with
    | some e => if k.reg fd = none ∧ ok = true then (0, k1.setReg fd (some e)) else (-1, k1)
    | none => (-1, k1)
  else if op = EPOLL_CTL_MOD then
    match events with
    | some e => if k.reg fd ≠ none ∧ ok = true then (0, k1.setReg fd (some e)) else (-1, k1)
    | none => (-1, k1)
  else if op = EPOLL_CTL_DEL then
    if k.reg fd ≠ none then (0, k1.setReg fd none) else (-1, k1)
  else (-1, k1)

/-- The call `bind(fd, &address, sizeof address)`: returns what the kernel reports. -/
def sys_bind (fd : Int) (addr port : Nat) (ret : Int) (k : Kernel) : Int × Kernel :=
  (ret, k.log (.bind fd addr port))

/-- The call `listen(fd, backlog)`: returns what the kernel reports. -/
def sys_listen (fd : Int) (backlog : Nat) (ret : Int) (k : Kernel) : Int × Kernel :=
  (ret, k.log (.listen fd backlog))

/-- The call `accept(fd, ...)`: `cand` as for `sys_socket`. -/
def sys_accept (fd : Int) (cand : Int) (k : Kernel) : Int × Kernel :=
  let k1 := k.log (.accept fd)
  if k.fresh cand then (cand, { k1 with openFds := cand :: k1.openFds }) else (-1, k1)

/-- The call `read(fd, buf, count)`: returns what the kernel reports. -/
def sys_read (fd : Int) (count : Nat) (ret : Int) (k : Kernel) : Int × Kernel :=
  (ret, k.log (.read fd count))

/-- The call `send(fd, buf, len, 0)`.  The flags are 0 (no `MSG_NOSIGNAL`) and the
program leaves `SIGPIPE` at its default disposition, so on a connection the peer has
broken (`sigpipe = true`) the signal terminates the process inside the call, which never
returns: the result is `none`.  Otherwise the call returns what the kernel reports, a
byte count or -1. -/
def sys_send (fd : Int) (buf : String) (len : Nat) (ret : Int) (sigpipe : Bool)
    (k : Kernel) : Option Int × Kernel :=
  if sigpipe = true then (none, { k.log (.send fd buf len) with terminated := true })
  else (some ret, k.log (.send fd buf len))

/-- The call `close(fd)`: the descriptor is released; closing the epoll instance
destroys it together with its interest list.  The interest list of a live instance
is not touched: only `EPOLL_CTL_DEL` removes a registration in this model. -/
def sys_close (fd : Int) (k : Kernel) : Kernel :=
  let k1 := k.log (.close fd)
  if k.epoll = some fd then
    { k1 with openFds := k1.openFds.filter (fun x => x ≠ fd), epoll := none,
              reg := fun _ => none }
  else { k1 with openFds := k1.openFds.filter (fun x => x ≠ fd) }

/-- Number of bytes before the terminating NUL, as `strlen` counts them. -/
def strlen (s : String) : Nat :=
  ((s.toList.takeWhile (fun c => c ≠ Char.ofNat 0)).map Char.utf8Size).sum

/-! ## The functions of `main.c` -/

/-- What the operating system answers to the set-up calls of `main`. -/
structure SetupOutcomes where
  /-- Descriptor offered for `socket`. -/
  socket_fd : Int
  /-- Result of `fcntl(F_GETFL)`. -/
  getfl : Int
  /-- Result of `fcntl(F_SETFL)`. -/
  setfl : Int
  /-- Result of `setsockopt`. -/
  setsockopt : Int
  /-- Descriptor offered for `epoll_create1`. -/
  epoll_fd : Int
  /-- Whether `epoll_ctl` finds the resources it needs. -/
  ctl_ok : Bool
  /-- Result of `bind`. -/
  bind : Int
  /-- Result of `listen`. -/
  listen : Int

/-- Lines 38-61. -/
def create_nonblocking_server_socket (o : SetupOutcomes) (k : Kernel) : Int × Kernel :=
  let r := sys_socket AF_INET SOCK_STREAM 0 o.socket_fd k
  let sockfd := r.1
  if sockfd = -1 then (-1, r.2)
  else
    let g := sys_fcntl_getfl sockfd o.getfl r.2
    let flags := g.1
    let s := sys_fcntl_setfl sockfd (Int.lor flags O_NONBLOCK) o.setfl g.2
    if s.1 = -1 then (-2, sys_close sockfd s.2)
    else
      let opt : Int := 1
      let t := sys_setsockopt sockfd SOL_SOCKET (SO_REUSEADDR ||| SO_REUSEPORT) opt
        o.setsockopt s.2
      if t.1 ≠ 0 then (-3, t.2)
      else (sockfd, t.2)

/-- Lines 63-80. -/
def register_server_epoll_fd (server_socket_fd : Int) (o : SetupOutcomes) (k : Kernel) :
    Int × Kernel :=
  let r := sys_epoll_create1 0 o.epoll_fd k
  let epoll_fd := r.1
  if epoll_fd = -1 then (-1, r.2)
  else
    let c := sys_epoll_ctl epoll_fd EPOLL_CTL_ADD server_socket_fd (some EPOLLIN) o.ctl_ok r.2
    if c.1 = -1 then (-1, c.2)
    else (epoll_fd, c.2)

/-- Lines 82-102. -/
def start_server (server_socket_fd : Int) (port : Nat) (o : SetupOutcomes) (k : Kernel) :
    Int × Kernel :=
  let b := sys_bind server_socket_fd INADDR_ANY port o.bind k
  if b.1 < 0 then (-1, b.2)
  else
    let l := sys_listen server_socket_fd 10 o.listen b.2
    if l.1 < 0 then (-2, l.2)
    else (0, l.2)

/-- The `struct epoll_event` entries that `epoll_wait` fills in. -/
structure epoll_event where
  /-- The field `events`. -/
  events : Nat
  /-- The field `data.fd`. -/
  fd : Int
  deriving DecidableEq, Repr

/-- What the operating system answers to the calls made while one event is handled. -/
structure Outcomes where
  /-- Descriptor offered for `accept`. -/
  accept_fd : Int
  /-- Result of `fcntl(F_GETFL)`. -/
  getfl : Int
  /-- Result of `fcntl(F_SETFL)`. -/
  setfl : Int
  /-- Whether `epoll_ctl` ADD or MOD finds the resources it needs. -/
  ctl_ok : Bool
  /-- Result of `read`. -/
  read_n : Int
  /-- Result of `send`, when it returns. -/
  send_n : Int
  /-- Whether `send` finds the connection broken by the peer and raises `SIGPIPE`. -/
  sigpipe : Bool

/-- Lines 117-148: the branch taken for the listening socket. -/
def accept_path (server_socket_fd epoll_fd : Int) (o : Outcomes) (k : Kernel) : Kernel :=
  let a := sys_accept server_socket_fd o.accept_fd k
  let client_socket_fd := a.1
  if client_socket_fd = -1 then a.2
  else
    let g := sys_fcntl_getfl client_socket_fd o.getfl a.2
    let flags := g.1
    let s := sys_fcntl_setfl client_socket_fd (Int.lor flags O_NONBLOCK) o.setfl g.2
    if s.1 = -1 then sys_close client_socket_fd s.2
    else
      let c := sys_epoll_ctl epoll_fd EPOLL_CTL_ADD client_socket_fd
        (some (EPOLLIN ||| EPOLLET)) o.ctl_ok s.2
      if c.1 = -1 then sys_close client_socket_fd c.2
      else c.2

/-- Lines 151-169: the branch taken for a readable client socket. -/
def read_path (epoll_fd : Int) (client_socket_fd : Int) (o : Outcomes) (k : Kernel) : Kernel :=
  let r := sys_read client_socket_fd (10240 - 1) o.read_n k
  let n := r.1
  if n ≤ 0 then
    let d := sys_epoll_ctl epoll_fd EPOLL_CTL_DEL client_socket_fd none o.ctl_ok r.2
    sys_close client_socket_fd d.2
  else
    (sys_epoll_ctl epoll_fd EPOLL_CTL_MOD client_socket_fd (some (EPOLLOUT ||| EPOLLET))
      o.ctl_ok r.2).2

/-- The response literal of line 173. -/
def resp : String := "HTTP/1.1 200 OK\r\n"

/-- Lines 171-186: the branch taken for a writable client socket.  When the process is
terminated inside `send` (line 174), lines 175-186 are not executed. -/
def write_path (epoll_fd : Int) (client_socket_fd : Int) (o : Outcomes) (k : Kernel) : Kernel :=
  let s := sys_send client_socket_fd resp (strlen resp) o.send_n o.sigpipe k
  match s.1 with
  | none => s.2
  | some _ =>
    (sys_epoll_ctl epoll_fd EPOLL_CTL_MOD client_socket_fd (some (EPOLLIN ||| EPOLLET))
      o.ctl_ok s.2).2

/-- Lines 116-187: the body of the `for` loop, for `events[i] = ev`. -/
def handle_event (server_socket_fd epoll_fd : Int) (ev : epoll_event) (o : Outcomes)
    (k : Kernel) : Kernel :=
  if ev.fd = server_socket_fd then accept_path server_socket_fd epoll_fd o k
  else if ev.events &&& EPOLLIN ≠ 0 then read_path epoll_fd ev.fd o k
  else if ev.events &&& EPOLLOUT ≠ 0 then write_path epoll_fd ev.fd o k
  else k

/-- Lines 115-188: the `for` loop over the returned events, in array order. -/
def for_events (server_socket_fd epoll_fd : Int) :
    List (epoll_event × Outcomes) → Kernel → Kernel
  | [], k => k
  | (ev, o) :: rest, k =>
    for_events server_socket_fd epoll_fd rest (handle_event server_socket_fd epoll_fd ev o k)

/-- One answer to `epoll_wait`: `none` for a failure, otherwise the ready events, each
with the answers to the calls made while it is handled. -/
abbrev WaitOutcome := Option (List (epoll_event × Outcomes))

/-- The call `epoll_wait(epfd, events, maxevents, -1)`: fails on a descriptor that is not
the epoll instance; otherwise returns at most `maxevents` events and their number. -/
def sys_epoll_wait (epfd : Int) (maxevents : Nat) (w : WaitOutcome) (k : Kernel) :
    Int × List (epoll_event × Outcomes) × Kernel :=
  let k1 := k.log (.epoll_wait epfd maxevents)
  match w with
  | none => (-1, [], k1)
  | some evs =>
    if k.epoll = some epfd then (((evs.take maxevents).length : Int), evs.take maxevents, k1)
    else (-1, [], k1)

/-- Lines 104-191.  The `while (1)` loop consumes one `epoll_wait` answer per round; the
result is `some 0` once the loop has been left (line 190) and `none` while the program is
still blocked in it after the given answers. -/
def epoll_loop (server_socket_fd epoll_fd : Int) : List WaitOutcome → Kernel → Option Int × Kernel
  | [], k => (none, k)
  | w :: ws, k =>
    let r := sys_epoll_wait epoll_fd MAX_EVENTS w k
    let num_active_fds := r.1
    if num_active_fds = -1 then (some 0, r.2.2)
    else
      epoll_loop server_socket_fd epoll_fd ws
        (for_events server_socket_fd epoll_fd (r.2.1.take num_active_fds.toNat) r.2.2)

/-- Lines 193-208.  The result is the exit status, `none` while still in the loop. -/
def main (o : SetupOutcomes) (ws : List WaitOutcome) (k : Kernel) : Option Int × Kernel :=
  let r := create_nonblocking_server_socket o k
  let server_socket_fd := r.1
  if server_socket_fd < 0 then (some server_socket_fd, r.2)
  else
    let e := register_server_epoll_fd server_socket_fd o r.2
    let epoll_fd := e.1
    let s := start_server server_socket_fd 7181 o e.2
    let l := epoll_loop server_socket_fd epoll_fd ws s.2
    match l.1 with
    | none => (none, l.2)
    | some _ => (some 0, l.2)

/-! ## Reachable states of the event loop -/

/-- The state in which `epoll_loop` is entered after a successful set-up: the listening
socket and the epoll instance are open and only the listening socket is registered, for
`EPOLLIN` (line 72). -/
def initial (server_socket_fd epoll_fd : Int) : Kernel :=
  { openFds := [epoll_fd, server_socket_fd], epoll := some epoll_fd,
    reg := fun x => if x = server_socket_fd then some EPOLLIN else none,
    sockopts := [], trace := [], terminated := false }

/-- States reached from `initial` by handling events one at a time.  An event is
delivered only for a descriptor that is in the interest list when it is handled; the
answers of the operating system are arbitrary. -/
inductive Reachable (server_socket_fd epoll_fd : Int) : Kernel → Prop
  | init : server_socket_fd ≠ epoll_fd → Reachable server_socket_fd epoll_fd
      (initial server_socket_fd epoll_fd)
  | step {k : Kernel} (ev : epoll_event) (o : Outcomes) :
      Reachable server_socket_fd epoll_fd k → k.reg ev.fd ≠ none →
      Reachable server_socket_fd epoll_fd (handle_event server_socket_fd epoll_fd ev o k)

/-- The invariant of the event loop. -/
structure Inv (srv epfd : Int) (k : Kernel) : Prop where
  epoll : k.epoll = some epfd
  ne : srv ≠ epfd
  srv_open : srv ∈ k.openFds
  ep_open : epfd ∈ k.openFds
  srv_reg : k.reg srv = some EPOLLIN
  reg_open : ∀ fd, k.reg fd ≠ none → fd ∈ k.openFds ∧ fd ≠ epfd
  client : ∀ fd ∈ k.openFds, fd ≠ srv → fd ≠ epfd →
    k.reg fd = some (EPOLLIN ||| EPOLLET) ∨ k.reg fd = some (EPOLLOUT ||| EPOLLET)

/-! ## Sample answers and states used to instantiate the theorems -/

/-- Answers under which every call succeeds: `accept` hands out 5, `read` returns 10
bytes, `send` takes all 17. -/
def oAllOk : Outcomes :=
  { accept_fd := 5, getfl := 2, setfl := 0, ctl_ok := true, read_n := 10, send_n := 17,
    sigpipe := false }

/-- As `oAllOk`, but `epoll_ctl` fails. -/
def oCtlFails : Outcomes := { oAllOk with ctl_ok := false }

/-- As `oAllOk`, but `read` reports end of file. -/
def oEof : Outcomes := { oAllOk with read_n := 0 }

/-- As `oAllOk`, but `fcntl(F_SETFL)` fails. -/
def oSetflFails : Outcomes := { oAllOk with setfl := -1 }

/-- Listening socket 3, epoll instance 4, one accepted client 5 awaiting a request. -/
def kAccepted : Kernel := handle_event 3 4 ⟨EPOLLIN, 3⟩ oAllOk (initial 3 4)

/-- From `kAccepted`: a request was read from client 5 and the MOD succeeded. -/
def kRequested : Kernel := handle_event 3 4 ⟨EPOLLIN, 5⟩ oAllOk kAccepted

/-- From `kAccepted`: a request was read from client 5 and the MOD failed. -/
def kModFailed : Kernel := handle_event 3 4 ⟨EPOLLIN, 5⟩ oCtlFails kAccepted

/-! ## Observing the trace -/

/-- The calls of a trace that are `accept` calls. -/
def acceptCalls (t : List Syscall) : List Syscall :=
  t.filter (fun c => match c with
    | .accept _ => true
    | _ => false)

/-! ## The dispatch rule of the specification -/

/-- The branches of the loop body. -/
inductive Branch where
  | accept
  | read
  | write
  | ignore
  deriving DecidableEq, Repr

/-- The dispatch rule in the words of the specification (section 4.3, step 3): the
listening descriptor goes to the accept handler, otherwise a readable event to the read
path, otherwise a writable event to the write path, anything else is ignored. -/
def spec_dispatch (listening : Int) (ev : epoll_event) : Branch :=
  if ev.fd = listening then .accept
  else if ev.events &&& EPOLLIN ≠ 0 then .read
  else if ev.events &&& EPOLLOUT ≠ 0 then .write
  else .ignore

/-- The calls of a trace with which a branch starts: `accept`, `read`, `send`. -/
def entryCalls (t : List Syscall) : List Syscall :=
  t.filter (fun c => match c with
    | .accept _ => true
    | .read _ _ => true
    | .send _ _ _ => true
    | _ => false)

/-! ## Events the epoll instance can deliver -/

/-- The epoll instance can report `ev` in state `k`: the descriptor is in the interest
list, and `EPOLLIN` and `EPOLLOUT` are reported only when registered (`EPOLLERR` and
`EPOLLHUP` are reported whatever the registered mask). -/
def delivers (k : Kernel) (ev : epoll_event) : Bool :=
  match k.reg ev.fd with
  | none => false
  | some e =>
    (ev.events &&& EPOLLIN == 0 || e &&& EPOLLIN != 0) &&
      (ev.events &&& EPOLLOUT == 0 || e &&& EPOLLOUT != 0)

/-- Every event of the list can be reported by the epoll instance in the state in which
the loop handles it. -/
def Delivered (srv epfd : Int) : List (epoll_event × Outcomes) → Kernel → Prop
  | [], _ => True
  | (ev, o) :: rest, k =>
    delivers k ev = true ∧ Delivered srv epfd rest (handle_event srv epfd ev o k)

/-- In the calls `t`, every `read` on `fd` comes after a `send` on `fd`. -/
def ReadAfterSend (fd : Int) (t : List Syscall) : Prop :=
  ∀ front c back, t = front ++ c :: back → (∃ n, c = Syscall.read fd n) →
    ∃ buf len, Syscall.send fd buf len ∈ front

/-! ## Schedules of `epoll_wait` answers -/

/-- The call takes descriptor `fd` out of service: `close`, `EPOLL_CTL_DEL` or
`EPOLL_CTL_MOD` with `fd` as target. -/
def Syscall.disturbs (fd : Int) : Syscall → Bool
  | .close x => x == fd
  | .epoll_ctl _ op x _ => x == fd && (op == EPOLL_CTL_DEL || op == EPOLL_CTL_MOD)
  | _ => false

/-- Every answer of `epoll_wait` in the schedule reports only events the epoll instance
can deliver in the state in which the loop handles them. -/
def Scheduled (srv epfd : Int) : List WaitOutcome → Kernel → Prop
  | [], _ => True
  | w :: ws, k =>
    (sys_epoll_wait epfd MAX_EVENTS w k).1 ≠ -1 →
      Delivered srv epfd (sys_epoll_wait epfd MAX_EVENTS w k).2.1
          (sys_epoll_wait epfd MAX_EVENTS w k).2.2 ∧
        Scheduled srv epfd ws
          (for_events srv epfd (sys_epoll_wait epfd MAX_EVENTS w k).2.1
            (sys_epoll_wait epfd MAX_EVENTS w k).2.2)

/-- The loop invariant together with: no call issued so far disturbs the listening
socket. -/
def Undisturbed (srv epfd : Int) (k : Kernel) : Prop :=
  Inv srv epfd k ∧ ∀ c ∈ k.trace, Syscall.disturbs srv c = false

/-- As `oAllOk`, but `accept` fails. -/
def oAcceptFails : Outcomes := { oAllOk with accept_fd := -1 }

/-- Three rounds: a client is accepted; it hangs up and an `accept` fails; `epoll_wait`
fails. -/
def sampleSchedule : List WaitOutcome :=
  [some [(⟨EPOLLIN, 3⟩, oAllOk)],
   some [(⟨EPOLLIN, 5⟩, oEof), (⟨EPOLLIN, 3⟩, oAcceptFails)],
   none]

/-! ## Sample answers to the set-up calls -/

/-- Set-up answers under which every call succeeds: socket 3, epoll instance 4. -/
def sAllOk : SetupOutcomes :=
  { socket_fd := 3, getfl := 2, setfl := 0, setsockopt := 0, epoll_fd := 4, ctl_ok := true,
    bind := 0, listen := 0 }

/-- As `sAllOk`, but `fcntl(F_SETFL)` fails. -/
def sFcntlFails : SetupOutcomes := { sAllOk with setfl := -1 }

/-- As `sAllOk`, but `setsockopt` fails. -/
def sSetsockoptFails : SetupOutcomes := { sAllOk with setsockopt := -1 }

/-- As `sAllOk`, but `epoll_create1` fails. -/
def sEpollCreateFails : SetupOutcomes := { sAllOk with epoll_fd := -1 }

/-- As `sAllOk`, but registering the listening socket fails. -/
def sRegisterFails : SetupOutcomes := { sAllOk with ctl_ok := false }

/-- As `sAllOk`, but `bind` fails. -/
def sBindFails : SetupOutcomes := { sAllOk with bind := -1 }

/-- As `sAllOk`, but `listen` fails. -/
def sListenFails : SetupOutcomes := { sAllOk with listen := -1 }

/-! # Theorems -/

/-! ## Frame lemmas for the system calls -/

@[simp] theorem log_openFds (k : Kernel) (c : Syscall) : (k.log c).openFds = k.openFds := rfl
@[simp] theorem log_epoll (k : Kernel) (c : Syscall) : (k.log c).epoll = k.epoll := rfl
@[simp] theorem log_reg (k : Kernel) (c : Syscall) : (k.log c).reg = k.reg := rfl
@[simp] theorem log_sockopts (k : Kernel) (c : Syscall) : (k.log c).sockopts = k.sockopts := rfl
@[simp] theorem log_trace (k : Kernel) (c : Syscall) : (k.log c).trace = k.trace ++ [c] := rfl

@[simp] theorem setReg_openFds (k : Kernel) (fd : Int) (e : Option Nat) :
    (k.setReg fd e).openFds = k.openFds := rfl
@[simp] theorem setReg_epoll (k : Kernel) (fd : Int) (e : Option Nat) :
    (k.setReg fd e).epoll = k.epoll := rfl
@[simp] theorem setReg_trace (k : Kernel) (fd : Int) (e : Option Nat) :
    (k.setReg fd e).trace = k.trace := rfl
@[simp] theorem setReg_sockopts (k : Kernel) (fd : Int) (e : Option Nat) :
    (k.setReg fd e).sockopts = k.sockopts := rfl
@[simp] theorem setReg_reg (k : Kernel) (fd : Int) (e : Option Nat) (x : Int) :
    (k.setReg fd e).reg x = if x = fd then e else k.reg x := rfl

theorem fresh_iff (k : Kernel) (c : Int) : k.fresh c = true ↔ 0 ≤ c ∧ c ∉ k.openFds := by
  simp [Kernel.fresh]

@[simp] theorem ctl_openFds (epfd : Int) (op : Nat) (fd : Int) (ev : Option Nat) (ok : Bool)
    (k : Kernel) : (sys_epoll_ctl epfd op fd ev ok k).2.openFds = k.openFds := by
  unfold sys_epoll_ctl
  cases ev <;> simp only [] <;> split_ifs <;> rfl

@[simp] theorem ctl_epoll (epfd : Int) (op : Nat) (fd : Int) (ev : Option Nat) (ok : Bool)
    (k : Kernel) : (sys_epoll_ctl epfd op fd ev ok k).2.epoll = k.epoll := by
  unfold sys_epoll_ctl
  cases ev <;> simp only [] <;> split_ifs <;> rfl

@[simp] theorem ctl_trace (epfd : Int) (op : Nat) (fd : Int) (ev : Option Nat) (ok : Bool)
    (k : Kernel) :
    (sys_epoll_ctl epfd op fd ev ok k).2.trace = k.trace ++ [.epoll_ctl epfd op fd ev] := by
  unfold sys_epoll_ctl
  cases ev <;> simp only [] <;> split_ifs <;> rfl

/-- The call `epoll_ctl` changes the interest list at most at its target. -/
theorem ctl_reg_other (epfd : Int) (op : Nat) (fd : Int) (ev : Option Nat) (ok : Bool)
    (k : Kernel) (x : Int) (hx : x ≠ fd) :
    (sys_epoll_ctl epfd op fd ev ok k).2.reg x = k.reg x := by
  unfold sys_epoll_ctl
  cases ev <;> simp only [] <;> split_ifs <;> simp [hx]

/-- ADD on a live instance, for an open unregistered descriptor, succeeds exactly when
the kernel has the resources. -/
theorem ctl_add (epfd fd : Int) (e : Nat) (ok : Bool) (k : Kernel)
    (he : k.epoll = some epfd) (ho : fd ∈ k.openFds) (hne : fd ≠ epfd) (hr : k.reg fd = none) :
    sys_epoll_ctl epfd EPOLL_CTL_ADD fd (some e) ok k =
      if ok = true then (0, (k.log (.epoll_ctl epfd EPOLL_CTL_ADD fd (some e))).setReg fd (some e))
      else (-1, k.log (.epoll_ctl epfd EPOLL_CTL_ADD fd (some e))) := by
  simp [sys_epoll_ctl, he, ho, hne, hr]

/-- MOD on a live instance, for an open registered descriptor, succeeds exactly when the
kernel has the resources. -/
theorem ctl_mod (epfd fd : Int) (e : Nat) (ok : Bool) (k : Kernel)
    (he : k.epoll = some epfd) (ho : fd ∈ k.openFds) (hne : fd ≠ epfd) (hr : k.reg fd ≠ none) :
    sys_epoll_ctl epfd EPOLL_CTL_MOD fd (some e) ok k =
      if ok = true then (0, (k.log (.epoll_ctl epfd EPOLL_CTL_MOD fd (some e))).setReg fd (some e))
      else (-1, k.log (.epoll_ctl epfd EPOLL_CTL_MOD fd (some e))) := by
  simp [sys_epoll_ctl, he, ho, hne, hr, EPOLL_CTL_MOD, EPOLL_CTL_ADD]

/-- DEL on a live instance, for an open registered descriptor, succeeds. -/
theorem ctl_del (epfd fd : Int) (ok : Bool) (k : Kernel)
    (he : k.epoll = some epfd) (ho : fd ∈ k.openFds) (hne : fd ≠ epfd) (hr : k.reg fd ≠ none) :
    sys_epoll_ctl epfd EPOLL_CTL_DEL fd none ok k =
      (0, (k.log (.epoll_ctl epfd EPOLL_CTL_DEL fd none)).setReg fd none) := by
  simp [sys_epoll_ctl, he, ho, hne, hr, EPOLL_CTL_MOD, EPOLL_CTL_ADD, EPOLL_CTL_DEL]

/-- MOD never registers an unregistered descriptor and never removes a registration. -/
theorem ctl_mod_reg (epfd fd : Int) (e : Nat) (ok : Bool) (k : Kernel) (x : Int) :
    (sys_epoll_ctl epfd EPOLL_CTL_MOD fd (some e) ok k).2.reg x = k.reg x ∨
      (x = fd ∧ k.reg fd ≠ none ∧ fd ∈ k.openFds ∧ fd ≠ epfd ∧
        (sys_epoll_ctl epfd EPOLL_CTL_MOD fd (some e) ok k).2.reg x = some e) := by
  unfold sys_epoll_ctl
  simp only [EPOLL_CTL_MOD, EPOLL_CTL_ADD]
  split_ifs with h1 h2 h3 <;> simp_all
  by_cases hx : x = fd <;> simp [hx]

/-- Closing a descriptor other than the epoll instance. -/
theorem close_other (fd : Int) (k : Kernel) (h : k.epoll ≠ some fd) :
    sys_close fd k = { k.log (.close fd) with openFds := k.openFds.filter (fun x => x ≠ fd) } := by
  simp [sys_close, h]

/-! ## What each branch of the loop body does in a state satisfying the invariant -/

theorem inv_fresh_facts {srv epfd : Int} {k : Kernel} (hI : Inv srv epfd k) {c : Int}
    (h : k.fresh c = true) : c ∉ k.openFds ∧ c ≠ epfd ∧ c ≠ srv ∧ k.reg c = none ∧ c ≠ -1 := by
  obtain ⟨h0, hc⟩ := (fresh_iff k c).1 h
  refine ⟨hc, ?_, ?_, ?_, by omega⟩
  · rintro rfl; exact hc hI.ep_open
  · rintro rfl; exact hc hI.srv_open
  · by_contra hr; exact hc (hI.reg_open c hr).1

theorem filter_ne_cons_self (c : Int) (l : List Int) (h : c ∉ l) :
    (c :: l).filter (fun x => decide (x ≠ c)) = l := by
  rw [List.filter_cons_of_neg (by simp)]
  exact List.filter_eq_self.2 (fun a ha => by
    have : a ≠ c := fun hac => h (hac ▸ ha)
    simpa using this)

/-- A failed `accept` only adds the call to the trace. -/
theorem accept_path_fail (srv epfd : Int) (o : Outcomes) (k : Kernel)
    (h : k.fresh o.accept_fd = false) :
    accept_path srv epfd o k = k.log (.accept srv) := by
  simp [accept_path, sys_accept, h]

/-- Accepted, `fcntl(F_SETFL)` fails: the new descriptor is closed again. -/
theorem accept_path_setfl_fail {srv epfd : Int} {k : Kernel} (hI : Inv srv epfd k)
    (o : Outcomes) (h : k.fresh o.accept_fd = true) (hs : o.setfl = -1) :
    accept_path srv epfd o k =
      { k with trace := k.trace ++ [.accept srv, .fcntl_getfl o.accept_fd,
          .fcntl_setfl o.accept_fd (Int.lor o.getfl O_NONBLOCK), .close o.accept_fd] } := by
  obtain ⟨hc, hce, _, _, hm⟩ := inv_fresh_facts hI h
  have he : ¬ epfd = o.accept_fd := fun hh => hce hh.symm
  have hf := filter_ne_cons_self o.accept_fd k.openFds hc
  simp only [ne_eq, decide_not] at hf
  simp [accept_path, sys_accept, h, hm, sys_fcntl_getfl, sys_fcntl_setfl, hs, sys_close,
    hI.epoll, he, Kernel.log, hf]

/-- Accepted, `EPOLL_CTL_ADD` fails: the new descriptor is closed again. -/
theorem accept_path_add_fail {srv epfd : Int} {k : Kernel} (hI : Inv srv epfd k)
    (o : Outcomes) (h : k.fresh o.accept_fd = true) (hs : o.setfl ≠ -1)
    (hok : o.ctl_ok = false) :
    accept_path srv epfd o k =
      { k with trace := k.trace ++ [.accept srv, .fcntl_getfl o.accept_fd,
          .fcntl_setfl o.accept_fd (Int.lor o.getfl O_NONBLOCK),
          .epoll_ctl epfd EPOLL_CTL_ADD o.accept_fd (some (EPOLLIN ||| EPOLLET)),
          .close o.accept_fd] } := by
  obtain ⟨hc, hce, _, hr, hm⟩ := inv_fresh_facts hI h
  have he : ¬ epfd = o.accept_fd := fun hh => hce hh.symm
  have hf := filter_ne_cons_self o.accept_fd k.openFds hc
  simp only [ne_eq, decide_not] at hf
  simp [accept_path, sys_accept, h, hm, sys_fcntl_getfl, sys_fcntl_setfl, hs, sys_close,
    hI.epoll, he, Kernel.log, hf, sys_epoll_ctl, hce, hr, hok]

/-- Accepted and registered. -/
theorem accept_path_ok {srv epfd : Int} {k : Kernel} (hI : Inv srv epfd k)
    (o : Outcomes) (h : k.fresh o.accept_fd = true) (hs : o.setfl ≠ -1)
    (hok : o.ctl_ok = true) :
    accept_path srv epfd o k =
      { k with
        openFds := o.accept_fd :: k.openFds
        reg := fun x => if x = o.accept_fd then some (EPOLLIN ||| EPOLLET) else k.reg x
        trace := k.trace ++ [.accept srv, .fcntl_getfl o.accept_fd,
          .fcntl_setfl o.accept_fd (Int.lor o.getfl O_NONBLOCK),
          .epoll_ctl epfd EPOLL_CTL_ADD o.accept_fd (some (EPOLLIN ||| EPOLLET))] } := by
  obtain ⟨hc, hce, _, hr, hm⟩ := inv_fresh_facts hI h
  simp [accept_path, sys_accept, h, hm, sys_fcntl_getfl, sys_fcntl_setfl, hs,
    hI.epoll, Kernel.log, sys_epoll_ctl, hce, hr, hok, Kernel.setReg]

/-- A read that returns `n ≤ 0` on a registered descriptor: DEL, then close. -/
theorem read_path_close {srv epfd : Int} {k : Kernel} (hI : Inv srv epfd k)
    (fd : Int) (o : Outcomes) (hreg : k.reg fd ≠ none) (hn : o.read_n ≤ 0) :
    read_path epfd fd o k =
      { k with
        openFds := k.openFds.filter (fun x => x ≠ fd)
        reg := fun x => if x = fd then none else k.reg x
        trace := k.trace ++ [.read fd 10239, .epoll_ctl epfd EPOLL_CTL_DEL fd none,
          .close fd] } := by
  obtain ⟨ho, hne⟩ := hI.reg_open fd hreg
  have he : ¬ epfd = fd := fun hh => hne hh.symm
  simp [read_path, sys_read, hn, sys_close, hI.epoll, he, Kernel.log, sys_epoll_ctl, ho, hne,
    hreg, EPOLL_CTL_DEL, EPOLL_CTL_ADD, EPOLL_CTL_MOD, Kernel.setReg]

/-- A read that returns `n > 0` on a registered descriptor: MOD to `EPOLLOUT | EPOLLET`. -/
theorem read_path_mod {srv epfd : Int} {k : Kernel} (hI : Inv srv epfd k)
    (fd : Int) (o : Outcomes) (hreg : k.reg fd ≠ none) (hn : 0 < o.read_n) :
    read_path epfd fd o k =
      { k with
        reg := fun x => if x = fd ∧ o.ctl_ok = true then some (EPOLLOUT ||| EPOLLET)
          else k.reg x
        trace := k.trace ++ [.read fd 10239,
          .epoll_ctl epfd EPOLL_CTL_MOD fd (some (EPOLLOUT ||| EPOLLET))] } := by
  obtain ⟨ho, hne⟩ := hI.reg_open fd hreg
  have hn' : ¬ o.read_n ≤ 0 := by omega
  cases hok : o.ctl_ok <;>
  simp [read_path, sys_read, hn', hI.epoll, Kernel.log, sys_epoll_ctl, ho, hne,
    hreg, EPOLL_CTL_ADD, EPOLL_CTL_MOD, Kernel.setReg, hok]

/-- The write branch when `send` raises `SIGPIPE`: the process is terminated inside the
call and nothing follows it. -/
theorem write_path_killed (epfd fd : Int) (o : Outcomes) (k : Kernel)
    (hsp : o.sigpipe = true) :
    write_path epfd fd o k =
      { k with
        trace := k.trace ++ [.send fd resp (strlen resp)]
        terminated := true } := by
  simp [write_path, sys_send, hsp, Kernel.log]

/-- The write branch on a registered descriptor when `send` returns: one send, MOD to
`EPOLLIN | EPOLLET`. -/
theorem write_path_eq {srv epfd : Int} {k : Kernel} (hI : Inv srv epfd k)
    (fd : Int) (o : Outcomes) (hreg : k.reg fd ≠ none) (hsp : o.sigpipe = false) :
    write_path epfd fd o k =
      { k with
        reg := fun x => if x = fd ∧ o.ctl_ok = true then some (EPOLLIN ||| EPOLLET)
          else k.reg x
        trace := k.trace ++ [.send fd resp (strlen resp),
          .epoll_ctl epfd EPOLL_CTL_MOD fd (some (EPOLLIN ||| EPOLLET))] } := by
  obtain ⟨ho, hne⟩ := hI.reg_open fd hreg
  cases hok : o.ctl_ok <;>
  simp [write_path, sys_send, hsp, hI.epoll, Kernel.log, sys_epoll_ctl, ho, hne,
    hreg, EPOLL_CTL_ADD, EPOLL_CTL_MOD, Kernel.setReg, hok]

/-! ## The invariant holds in every reachable state -/

theorem inv_initial {srv epfd : Int} (h : srv ≠ epfd) : Inv srv epfd (initial srv epfd) := by
  refine ⟨rfl, h, by simp [MCP.initial], by simp [MCP.initial], by simp [MCP.initial], ?_, ?_⟩
  · intro fd hfd
    have : fd = srv := by
      by_contra hne
      simp [MCP.initial, hne] at hfd
    subst this
    simp [MCP.initial, h]
  · intro fd hfd h1 h2
    simp [MCP.initial] at hfd
    rcases hfd with rfl | rfl
    · exact absurd rfl h2
    · exact absurd rfl h1

/-- The invariant looks neither at the trace nor at the termination flag. -/
theorem inv_killed {srv epfd : Int} {k : Kernel} (hI : Inv srv epfd k) (t : List Syscall)
    (b : Bool) : Inv srv epfd { k with trace := t, terminated := b } :=
  ⟨hI.epoll, hI.ne, hI.srv_open, hI.ep_open, hI.srv_reg, hI.reg_open, hI.client⟩

/-- The invariant does not look at the trace. -/
theorem inv_with_trace {srv epfd : Int} {k : Kernel} (hI : Inv srv epfd k) (t : List Syscall) :
    Inv srv epfd { k with trace := t } :=
  ⟨hI.epoll, hI.ne, hI.srv_open, hI.ep_open, hI.srv_reg, hI.reg_open, hI.client⟩

theorem inv_accept_path {srv epfd : Int} {k : Kernel} (hI : Inv srv epfd k) (o : Outcomes) :
    Inv srv epfd (accept_path srv epfd o k) := by
  cases h : k.fresh o.accept_fd
  · rw [accept_path_fail srv epfd o k h]
    exact inv_with_trace hI _
  · by_cases hs : o.setfl = -1
    · rw [accept_path_setfl_fail hI o h hs]
      exact inv_with_trace hI _
    · cases hok : o.ctl_ok
      · rw [accept_path_add_fail hI o h hs hok]
        exact inv_with_trace hI _
      · rw [accept_path_ok hI o h hs hok]
        obtain ⟨hc, hce, hcs, hr, _⟩ := inv_fresh_facts hI h
        refine ⟨hI.epoll, hI.ne, List.mem_cons_of_mem _ hI.srv_open,
          List.mem_cons_of_mem _ hI.ep_open, ?_, ?_, ?_⟩
        · simp [Ne.symm hcs, hI.srv_reg]
        · intro fd hfd
          by_cases hx : fd = o.accept_fd
          · subst hx
            exact ⟨List.mem_cons_self _ _, hce⟩
          · simp only [hx, if_false] at hfd
            exact ⟨List.mem_cons_of_mem _ (hI.reg_open fd hfd).1, (hI.reg_open fd hfd).2⟩
        · intro fd hfd h1 h2
          by_cases hx : fd = o.accept_fd
          · simp [hx]
          · simp only [hx, if_false]
            rcases List.mem_cons.1 hfd with h3 | h3
            · exact absurd h3 hx
            · exact hI.client fd h3 h1 h2

theorem inv_read_path {srv epfd : Int} {k : Kernel} (hI : Inv srv epfd k) (fd : Int)
    (o : Outcomes) (hreg : k.reg fd ≠ none) (hsrv : fd ≠ srv) :
    Inv srv epfd (read_path epfd fd o k) := by
  obtain ⟨ho, hne⟩ := hI.reg_open fd hreg
  by_cases hn : o.read_n ≤ 0
  · rw [read_path_close hI fd o hreg hn]
    refine ⟨hI.epoll, hI.ne, ?_, ?_, ?_, ?_, ?_⟩
    · simpa [List.mem_filter] using And.intro hI.srv_open (Ne.symm hsrv)
    · simpa [List.mem_filter] using And.intro hI.ep_open (Ne.symm hne)
    · simp [Ne.symm hsrv, hI.srv_reg]
    · intro x hx
      by_cases hxf : x = fd
      · simp [hxf] at hx
      · simp only [hxf, if_false] at hx
        refine ⟨?_, (hI.reg_open x hx).2⟩
        simpa [List.mem_filter] using And.intro (hI.reg_open x hx).1 hxf
    · intro x hx h1 h2
      simp only [ne_eq, decide_not, List.mem_filter, Bool.not_eq_eq_eq_not, Bool.not_true,
        decide_eq_false_iff_not] at hx
      simp only [hx.2, if_false]
      exact hI.client x hx.1 h1 h2
  · rw [read_path_mod hI fd o hreg (by omega)]
    refine ⟨hI.epoll, hI.ne, hI.srv_open, hI.ep_open, ?_, ?_, ?_⟩
    · simp [Ne.symm hsrv, hI.srv_reg]
    · intro x hx
      by_cases hxf : x = fd
      · subst hxf; exact ⟨ho, hne⟩
      · simp only [hxf, false_and, if_false] at hx
        exact hI.reg_open x hx
    · intro x hx h1 h2
      by_cases hxf : x = fd ∧ o.ctl_ok = true
      · simp [hxf]
      · simp only [hxf, if_false]
        exact hI.client x hx h1 h2

theorem inv_write_path {srv epfd : Int} {k : Kernel} (hI : Inv srv epfd k) (fd : Int)
    (o : Outcomes) (hreg : k.reg fd ≠ none) (hsrv : fd ≠ srv) :
    Inv srv epfd (write_path epfd fd o k) := by
  obtain ⟨ho, hne⟩ := hI.reg_open fd hreg
  cases hsp : o.sigpipe
  swap
  · rw [write_path_killed epfd fd o k hsp]
    exact inv_killed hI _ _
  rw [write_path_eq hI fd o hreg hsp]
  refine ⟨hI.epoll, hI.ne, hI.srv_open, hI.ep_open, ?_, ?_, ?_⟩
  · simp [Ne.symm hsrv, hI.srv_reg]
  · intro x hx
    by_cases hxf : x = fd
    · subst hxf; exact ⟨ho, hne⟩
    · simp only [hxf, false_and, if_false] at hx
      exact hI.reg_open x hx
  · intro x hx h1 h2
    by_cases hxf : x = fd ∧ o.ctl_ok = true
    · simp [hxf]
    · simp only [hxf, if_false]
      exact hI.client x hx h1 h2

theorem inv_handle_event {srv epfd : Int} {k : Kernel} (hI : Inv srv epfd k)
    (ev : epoll_event) (o : Outcomes) (hreg : k.reg ev.fd ≠ none) :
    Inv srv epfd (handle_event srv epfd ev o k) := by
  unfold MCP.handle_event
  split_ifs with h1 h2 h3
  · exact inv_accept_path hI o
  · exact inv_read_path hI ev.fd o hreg h1
  · exact inv_write_path hI ev.fd o hreg h1
  · exact hI

theorem reachable_inv {srv epfd : Int} {k : Kernel} (h : Reachable srv epfd k) :
    Inv srv epfd k := by
  induction h with
  | init hne => exact inv_initial hne
  | step ev o _ hreg ih => exact inv_handle_event ih ev o hreg

/-! ## The sample states are reachable -/

theorem reachable_kAccepted : Reachable 3 4 kAccepted :=
  Reachable.step _ _ (Reachable.init (by decide)) (by decide)

theorem reachable_kModFailed : Reachable 3 4 kModFailed :=
  Reachable.step _ _ reachable_kAccepted (by decide)

/-! ## C1: exactly one interest per open client connection -/

/-- C1. In every state reachable from the initial state by handling events with
arbitrary answers of the operating system (a failing `EPOLL_CTL_MOD` included), every
descriptor that is open, other than the listening socket and the epoll instance, is
registered, and its registered interest is exactly one of `EPOLLIN | EPOLLET` and
`EPOLLOUT | EPOLLET`: one of the two, and not both.  The two masks share no readiness
bit. -/
theorem interest_exactly_one (srv epfd : Int) (k : Kernel) (hr : Reachable srv epfd k)
    (fd : Int) (hopen : fd ∈ k.openFds) (hsrv : fd ≠ srv) (hep : fd ≠ epfd) :
    Xor' (k.reg fd = some (EPOLLIN ||| EPOLLET)) (k.reg fd = some (EPOLLOUT ||| EPOLLET)) ∧
      (EPOLLIN ||| EPOLLET) &&& EPOLLOUT = 0 ∧ (EPOLLOUT ||| EPOLLET) &&& EPOLLIN = 0 := by
  have hd : (EPOLLIN ||| EPOLLET) ≠ (EPOLLOUT ||| EPOLLET) := by decide
  refine ⟨?_, by decide, by decide⟩
  rcases (reachable_inv hr).client fd hopen hsrv hep with h | h
  · refine Or.inl ⟨h, ?_⟩
    rw [h]
    exact fun hc => hd (Option.some.inj hc)
  · refine Or.inr ⟨h, ?_⟩
    rw [h]
    exact fun hc => hd (Option.some.inj hc).symm

/-- C1 at a concrete state: client 5 after a read whose MOD failed is still registered
for exactly `EPOLLIN | EPOLLET`. -/
theorem interest_exactly_one_witness :
    (5 : Int) ∈ kModFailed.openFds ∧ kModFailed.reg 5 = some (EPOLLIN ||| EPOLLET) ∧
      Xor' (kModFailed.reg 5 = some (EPOLLIN ||| EPOLLET))
        (kModFailed.reg 5 = some (EPOLLOUT ||| EPOLLET)) :=
  ⟨by decide, by decide,
    (interest_exactly_one 3 4 kModFailed reachable_kModFailed 5 (by decide) (by decide)
      (by decide)).1⟩

/-! ## C2: a read returning zero or less closes the connection once -/

/-- C2. A readable event on a registered client descriptor whose `read` returns
`n ≤ 0`: the calls issued are exactly `read`, `EPOLL_CTL_DEL`, `close` (one close, no
MOD); afterwards the descriptor is neither registered nor open, and the registration
and open state of every other descriptor are unchanged. -/
theorem read_eof_closes_once (srv epfd : Int) (k : Kernel) (hr : Reachable srv epfd k)
    (ev : epoll_event) (o : Outcomes) (hreg : k.reg ev.fd ≠ none) (hfd : ev.fd ≠ srv)
    (hin : ev.events &&& EPOLLIN ≠ 0) (hn : o.read_n ≤ 0) :
    (handle_event srv epfd ev o k).reg ev.fd = none ∧
      ev.fd ∉ (handle_event srv epfd ev o k).openFds ∧
      (handle_event srv epfd ev o k).trace = k.trace ++
        [.read ev.fd 10239, .epoll_ctl epfd EPOLL_CTL_DEL ev.fd none, .close ev.fd] ∧
      ((handle_event srv epfd ev o k).trace.drop k.trace.length).count (.close ev.fd) = 1 ∧
      (∀ c ∈ (handle_event srv epfd ev o k).trace.drop k.trace.length,
        ∀ a b e, c ≠ .epoll_ctl a EPOLL_CTL_MOD b e) ∧
      (∀ x, x ≠ ev.fd → (handle_event srv epfd ev o k).reg x = k.reg x ∧
        (x ∈ (handle_event srv epfd ev o k).openFds ↔ x ∈ k.openFds)) := by
  have hk : handle_event srv epfd ev o k = read_path epfd ev.fd o k := by
    simp [handle_event, hfd, hin]
  rw [hk, read_path_close (reachable_inv hr) ev.fd o hreg hn]
  refine ⟨by simp, by simp [List.mem_filter], rfl, ?_, ?_, ?_⟩
  · simp [List.count_cons, EPOLL_CTL_DEL]
  · intro c hc a b e
    simp only [List.drop_left, List.mem_cons, List.mem_singleton, List.not_mem_nil,
      or_false] at hc
    rcases hc with rfl | rfl | rfl <;> simp [EPOLL_CTL_DEL, EPOLL_CTL_MOD]
  · intro x hx
    simp [hx, List.mem_filter]

/-- C2 at a concrete state: end of file on client 5. -/
theorem read_eof_closes_once_witness :
    (handle_event 3 4 ⟨EPOLLIN, 5⟩ oEof kAccepted).reg 5 = none ∧
      (5 : Int) ∉ (handle_event 3 4 ⟨EPOLLIN, 5⟩ oEof kAccepted).openFds ∧
      ((handle_event 3 4 ⟨EPOLLIN, 5⟩ oEof kAccepted).trace.drop kAccepted.trace.length).count
        (.close 5) = 1 ∧
      (handle_event 3 4 ⟨EPOLLIN, 5⟩ oEof kAccepted).reg 3 = some EPOLLIN :=
  have h := read_eof_closes_once 3 4 kAccepted reachable_kAccepted ⟨EPOLLIN, 5⟩ oEof
    (by decide) (by decide) (by decide) (by decide)
  ⟨h.1, h.2.1, h.2.2.2.1, by decide⟩

/-! ## C4: the write branch -/

/-- C7. An event on the listening descriptor: `accept` is called exactly once.  When it
hands out a new descriptor `c`: if `fcntl(F_SETFL)` fails or `EPOLL_CTL_ADD` fails, `c`
is closed, is not registered, and the interest list is unchanged; if both succeed, `c`
is open and registered with exactly `EPOLLIN | EPOLLET`.  In every case every
registration that existed before is unchanged. -/
theorem accept_path_cases (srv epfd : Int) (k : Kernel) (hr : Reachable srv epfd k)
    (ev : epoll_event) (o : Outcomes) (hfd : ev.fd = srv) :
    acceptCalls ((handle_event srv epfd ev o k).trace.drop k.trace.length) = [.accept srv] ∧
      (k.fresh o.accept_fd = true → (o.setfl = -1 ∨ o.ctl_ok = false) →
        .close o.accept_fd ∈ (handle_event srv epfd ev o k).trace.drop k.trace.length ∧
        o.accept_fd ∉ (handle_event srv epfd ev o k).openFds ∧
        (handle_event srv epfd ev o k).reg o.accept_fd = none ∧
        (handle_event srv epfd ev o k).reg = k.reg) ∧
      (k.fresh o.accept_fd = true → o.setfl ≠ -1 → o.ctl_ok = true →
        o.accept_fd ∈ (handle_event srv epfd ev o k).openFds ∧
        (handle_event srv epfd ev o k).reg o.accept_fd = some (EPOLLIN ||| EPOLLET)) ∧
      (∀ x, k.reg x ≠ none → (handle_event srv epfd ev o k).reg x = k.reg x) := by
  have hI := (reachable_inv hr)
  have hk : handle_event srv epfd ev o k = accept_path srv epfd o k := by
    simp [handle_event, hfd]
  rw [hk]
  cases h : k.fresh o.accept_fd
  · rw [accept_path_fail srv epfd o k h]
    simp [acceptCalls]
  · obtain ⟨hc, hce, hcs, hrc, _⟩ := inv_fresh_facts hI h
    by_cases hs : o.setfl = -1
    · rw [accept_path_setfl_fail hI o h hs]
      simp [acceptCalls, hs, hc, hrc]
    · cases hok : o.ctl_ok
      · rw [accept_path_add_fail hI o h hs hok]
        simp [acceptCalls, hs, hc, hrc]
      · rw [accept_path_ok hI o h hs hok]
        simp only [List.drop_left, acceptCalls, hs, false_or, Bool.true_eq_false, false_implies,
          true_implies, not_false_eq_true, List.mem_cons, true_or, if_true, and_self, true_and]
        refine ⟨by simp [List.filter], fun _ => trivial, ?_⟩
        intro x hx
        have : x ≠ o.accept_fd := fun hxc => hx (hxc ▸ hrc)
        simp [this]

/-- C7 at concrete answers, in the initial state with listening socket 3: descriptor 5
is accepted and registered; with a failing `fcntl` and with a failing ADD it is closed
and the interest list is unchanged. -/
theorem accept_path_cases_witness :
    ((5 : Int) ∈ (handle_event 3 4 ⟨EPOLLIN, 3⟩ oAllOk (initial 3 4)).openFds ∧
      (handle_event 3 4 ⟨EPOLLIN, 3⟩ oAllOk (initial 3 4)).reg 5 =
        some (EPOLLIN ||| EPOLLET)) ∧
    ((5 : Int) ∉ (handle_event 3 4 ⟨EPOLLIN, 3⟩ oSetflFails (initial 3 4)).openFds ∧
      (handle_event 3 4 ⟨EPOLLIN, 3⟩ oSetflFails (initial 3 4)).reg = (initial 3 4).reg) ∧
    ((5 : Int) ∉ (handle_event 3 4 ⟨EPOLLIN, 3⟩ oCtlFails (initial 3 4)).openFds ∧
      (handle_event 3 4 ⟨EPOLLIN, 3⟩ oCtlFails (initial 3 4)).reg = (initial 3 4).reg) ∧
    (handle_event 3 4 ⟨EPOLLIN, 3⟩ oAllOk (initial 3 4)).reg 3 = (initial 3 4).reg 3 :=
  have hi : Reachable 3 4 (initial 3 4) := Reachable.init (by decide)
  have h1 := accept_path_cases 3 4 (initial 3 4) hi ⟨EPOLLIN, 3⟩ oAllOk rfl
  have h2 := accept_path_cases 3 4 (initial 3 4) hi ⟨EPOLLIN, 3⟩ oSetflFails rfl
  have h3 := accept_path_cases 3 4 (initial 3 4) hi ⟨EPOLLIN, 3⟩ oCtlFails rfl
  ⟨h1.2.2.1 (by decide) (by decide) rfl,
    ⟨(h2.2.1 (by decide) (Or.inl rfl)).2.1, (h2.2.1 (by decide) (Or.inl rfl)).2.2.2⟩,
    ⟨(h3.2.1 (by decide) (Or.inr rfl)).2.1, (h3.2.1 (by decide) (Or.inr rfl)).2.2.2⟩,
    h1.2.2.2 3 (by decide)⟩

/-! ## C6: the dispatch rule -/

@[simp] theorem close_trace (fd : Int) (k : Kernel) :
    (sys_close fd k).trace = k.trace ++ [.close fd] := by
  unfold sys_close
  simp only []
  split_ifs <;> rfl

theorem accept_path_entry (srv epfd : Int) (o : Outcomes) (k : Kernel) :
    entryCalls ((accept_path srv epfd o k).trace.drop k.trace.length) = [.accept srv] := by
  unfold accept_path sys_accept sys_fcntl_getfl sys_fcntl_setfl
  simp only []
  split_ifs <;> simp [entryCalls, List.filter]

theorem read_path_entry (epfd fd : Int) (o : Outcomes) (k : Kernel) :
    entryCalls ((read_path epfd fd o k).trace.drop k.trace.length) = [.read fd 10239] := by
  unfold read_path sys_read
  simp only []
  split_ifs <;> simp [entryCalls, List.filter]

theorem write_path_entry (epfd fd : Int) (o : Outcomes) (k : Kernel) :
    entryCalls ((write_path epfd fd o k).trace.drop k.trace.length) =
      [.send fd "HTTP/1.1 200 OK\r\n" 17] := by
  have hlen : strlen "HTTP/1.1 200 OK\r\n" = 17 := by decide
  unfold write_path sys_send
  cases hsp : o.sigpipe <;> simp [entryCalls, List.filter, hlen, resp]

theorem for_events_append (srv epfd : Int) (l1 l2 : List (epoll_event × Outcomes))
    (k : Kernel) :
    for_events srv epfd (l1 ++ l2) k = for_events srv epfd l2 (for_events srv epfd l1 k) := by
  induction l1 generalizing k with
  | nil => rfl
  | cons a l ih =>
    obtain ⟨ev, o⟩ := a
    simp only [List.cons_append, for_events]
    exact ih _

@[simp] theorem ctl_terminated (epfd : Int) (op : Nat) (fd : Int) (ev : Option Nat)
    (ok : Bool) (k : Kernel) :
    (sys_epoll_ctl epfd op fd ev ok k).2.terminated = k.terminated := by
  unfold sys_epoll_ctl
  cases ev <;> simp only [] <;> split_ifs <;> rfl

@[simp] theorem close_terminated (fd : Int) (k : Kernel) :
    (sys_close fd k).terminated = k.terminated := by
  unfold sys_close
  simp only []
  split_ifs <;> rfl

/-- The process is terminated by exactly one kind of step: the write branch whose `send`
raises `SIGPIPE`. -/
theorem handle_event_terminated (srv epfd : Int) (ev : epoll_event) (o : Outcomes)
    (k : Kernel) :
    (handle_event srv epfd ev o k).terminated =
      (k.terminated || (decide (spec_dispatch srv ev = .write) && o.sigpipe)) := by
  unfold handle_event spec_dispatch
  split_ifs with h1 h2 h3
  · unfold accept_path sys_accept sys_fcntl_getfl sys_fcntl_setfl
    simp only []
    split_ifs <;> simp [Kernel.log]
  · unfold read_path sys_read
    simp only []
    split_ifs <;> simp [Kernel.log]
  · unfold write_path sys_send
    cases hsp : o.sigpipe <;> simp [Kernel.log]
  · simp

/-- The loop body is the branch `spec_dispatch` names. -/
theorem dispatch_core (srv epfd : Int) (ev : epoll_event) (o : Outcomes) (k : Kernel) :
    handle_event srv epfd ev o k =
      match spec_dispatch srv ev with
      | .accept => accept_path srv epfd o k
      | .read => read_path epfd ev.fd o k
      | .write => write_path epfd ev.fd o k
      | .ignore => k := by
  unfold handle_event spec_dispatch
  split_ifs <;> rfl

/-- C6. For every returned event, in every state and with any answers: the loop body
runs the branch the specification names, decided in this order: accept for the listening
descriptor whatever the flags, else read when `EPOLLIN` is set (also together with
`EPOLLOUT`), else write when `EPOLLOUT` is set, else nothing at all (state and trace
unchanged).  Exactly one branch starts per event: the only branch-opening call issued is
the one `accept`, `read` or `send` of that branch.  The events of a batch are handled in
array order, each in the state its predecessors left. -/
theorem dispatch_rule (srv epfd : Int) (ev : epoll_event) (o : Outcomes) (k : Kernel)
    (before after : List (epoll_event × Outcomes)) :
    (handle_event srv epfd ev o k =
        match spec_dispatch srv ev with
        | .accept => accept_path srv epfd o k
        | .read => read_path epfd ev.fd o k
        | .write => write_path epfd ev.fd o k
        | .ignore => k) ∧
      (entryCalls ((handle_event srv epfd ev o k).trace.drop k.trace.length) =
        match spec_dispatch srv ev with
        | .accept => [.accept srv]
        | .read => [.read ev.fd 10239]
        | .write => [.send ev.fd "HTTP/1.1 200 OK\r\n" 17]
        | .ignore => []) ∧
      spec_dispatch srv ⟨EPOLLOUT, srv⟩ = .accept ∧
      spec_dispatch srv ⟨EPOLLIN ||| EPOLLOUT, srv + 1⟩ = .read ∧
      spec_dispatch srv ⟨EPOLLERR ||| EPOLLHUP, srv + 1⟩ = .ignore ∧
      for_events srv epfd (before ++ (ev, o) :: after) k =
        for_events srv epfd after
          (handle_event srv epfd ev o (for_events srv epfd before k)) := by
  refine ⟨dispatch_core srv epfd ev o k, ?_, ?_, ?_, ?_, ?_⟩
  · unfold handle_event spec_dispatch
    split_ifs
    · exact accept_path_entry srv epfd o k
    · exact read_path_entry epfd ev.fd o k
    · exact write_path_entry epfd ev.fd o k
    · simp [entryCalls]
  · simp [spec_dispatch]
  · have h : (EPOLLIN ||| EPOLLOUT) &&& EPOLLIN ≠ 0 := by decide
    simp [spec_dispatch, h]
  · have h1 : (EPOLLERR ||| EPOLLHUP) &&& EPOLLIN = 0 := by decide
    have h2 : (EPOLLERR ||| EPOLLHUP) &&& EPOLLOUT = 0 := by decide
    simp [spec_dispatch, h1, h2]
  · rw [for_events_append]
    rfl

/-! ## C3: after a request has been read, the response is sent before the next read -/

theorem delivers_reg {k : Kernel} {ev : epoll_event} (h : delivers k ev = true) :
    k.reg ev.fd ≠ none := by
  unfold delivers at h
  intro hc
  rw [hc] at h
  exact Bool.noConfusion h

theorem delivers_no_in {k : Kernel} {ev : epoll_event} (h : delivers k ev = true)
    (hr : k.reg ev.fd = some (EPOLLOUT ||| EPOLLET)) : ev.events &&& EPOLLIN = 0 := by
  unfold delivers at h
  rw [hr] at h
  have h0 : ((EPOLLOUT ||| EPOLLET) &&& EPOLLIN != 0) = false := by decide
  simp only [h0, Bool.or_false, Bool.and_eq_true, beq_iff_eq] at h
  exact h.1

/-- The calls one event adds to the trace: a `read` only on the event's own descriptor,
in the read branch; in the write branch a `send` on the event's descriptor. -/
theorem handle_event_seg (srv epfd : Int) (ev : epoll_event) (o : Outcomes) (k : Kernel) :
    ∃ seg, (handle_event srv epfd ev o k).trace = k.trace ++ seg ∧
      (∀ x n, Syscall.read x n ∈ seg → x = ev.fd ∧ spec_dispatch srv ev = .read) ∧
      (spec_dispatch srv ev = .write → Syscall.send ev.fd resp (strlen resp) ∈ seg) := by
  unfold handle_event spec_dispatch
  split_ifs with h1 h2 h3
  · refine ⟨(accept_path srv epfd o k).trace.drop k.trace.length, ?_, ?_, by simp⟩
    · unfold accept_path sys_accept sys_fcntl_getfl sys_fcntl_setfl
      simp only []
      split_ifs <;> simp
    · unfold accept_path sys_accept sys_fcntl_getfl sys_fcntl_setfl
      simp only []
      split_ifs <;> simp
  · refine ⟨(read_path epfd ev.fd o k).trace.drop k.trace.length, ?_, ?_, by simp⟩
    · unfold read_path sys_read
      simp only []
      split_ifs <;> simp
    · unfold read_path sys_read
      simp only []
      split_ifs <;> simp
  · refine ⟨(write_path epfd ev.fd o k).trace.drop k.trace.length, ?_, ?_, ?_⟩
    · unfold write_path sys_send
      cases hsp : o.sigpipe <;> simp
    · unfold write_path sys_send
      cases hsp : o.sigpipe <;> simp
    · unfold write_path sys_send
      cases hsp : o.sigpipe <;> simp
  · exact ⟨[], by simp, by simp, by simp⟩

theorem for_events_trace (srv epfd : Int) (l : List (epoll_event × Outcomes)) (k : Kernel) :
    ∃ t, (for_events srv epfd l k).trace = k.trace ++ t := by
  induction l generalizing k with
  | nil => exact ⟨[], by simp [for_events]⟩
  | cons a l ih =>
    obtain ⟨ev, o⟩ := a
    obtain ⟨seg, hseg, _, _⟩ := handle_event_seg srv epfd ev o k
    obtain ⟨t, ht⟩ := ih (handle_event srv epfd ev o k)
    exact ⟨seg ++ t, by simp only [for_events, ht, hseg, List.append_assoc]⟩

theorem readAfterSend_append {fd : Int} {seg t : List Syscall}
    (hseg : ∀ n, Syscall.read fd n ∉ seg) (ht : ReadAfterSend fd t) :
    ReadAfterSend fd (seg ++ t) := by
  intro front c back heq hc
  obtain ⟨n, rfl⟩ := hc
  rcases List.append_eq_append_iff.1 heq with ⟨a, ha, hb⟩ | ⟨a, ha, hb⟩
  · obtain ⟨buf, len, hm⟩ := ht a _ back hb ⟨n, rfl⟩
    exact ⟨buf, len, by rw [ha]; exact List.mem_append_right _ hm⟩
  · cases a with
    | nil =>
      simp only [List.nil_append] at hb
      simp only [List.append_nil] at ha
      obtain ⟨buf, len, hm⟩ := ht [] _ back hb.symm ⟨n, rfl⟩
      exact absurd hm (List.not_mem_nil _)
    | cons x a =>
      simp only [List.cons_append, List.cons.injEq] at hb
      exfalso
      apply hseg n
      rw [ha, hb.1]
      simp

theorem readAfterSend_of_send {fd : Int} {seg : List Syscall} (t : List Syscall)
    (hseg : ∀ n, Syscall.read fd n ∉ seg) {buf : String} {len : Nat}
    (hs : Syscall.send fd buf len ∈ seg) : ReadAfterSend fd (seg ++ t) := by
  intro front c back heq hc
  obtain ⟨n, rfl⟩ := hc
  rcases List.append_eq_append_iff.1 heq with ⟨a, ha, _⟩ | ⟨a, ha, hb⟩
  · exact ⟨buf, len, by rw [ha]; exact List.mem_append_left _ hs⟩
  · cases a with
    | nil =>
      simp only [List.append_nil] at ha
      exact ⟨buf, len, by rw [← ha]; exact hs⟩
    | cons x a =>
      simp only [List.cons_append, List.cons.injEq] at hb
      exfalso
      apply hseg n
      rw [ha, hb.1]
      simp

/-- An event handled by another branch than the read or write branch of `fd` leaves
`fd` open and its registration as it was. -/
theorem other_event_keeps {srv epfd : Int} {k : Kernel} (hI : Inv srv epfd k) {fd : Int}
    (hopen : fd ∈ k.openFds) (ev : epoll_event) (o : Outcomes) (hreg : k.reg ev.fd ≠ none)
    (hother : ev.fd ≠ fd ∨ spec_dispatch srv ev = .ignore ∨ spec_dispatch srv ev = .accept) :
    fd ∈ (handle_event srv epfd ev o k).openFds ∧
      (handle_event srv epfd ev o k).reg fd = k.reg fd := by
  rw [(dispatch_core srv epfd ev o k)]
  cases hd : spec_dispatch srv ev with
  | accept =>
    simp only []
    cases h : k.fresh o.accept_fd
    · rw [accept_path_fail srv epfd o k h]
      exact ⟨hopen, rfl⟩
    · have hc := (inv_fresh_facts hI h).1
      have hne : fd ≠ o.accept_fd := fun hh => hc (hh ▸ hopen)
      by_cases hs : o.setfl = -1
      · rw [accept_path_setfl_fail hI o h hs]
        exact ⟨hopen, rfl⟩
      · cases hok : o.ctl_ok
        · rw [accept_path_add_fail hI o h hs hok]
          exact ⟨hopen, rfl⟩
        · rw [accept_path_ok hI o h hs hok]
          exact ⟨List.mem_cons_of_mem _ hopen, by simp [hne]⟩
  | read =>
    have hne : fd ≠ ev.fd := by
      rcases hother with h | h | h
      · exact Ne.symm h
      · rw [hd] at h; exact Branch.noConfusion h
      · rw [hd] at h; exact Branch.noConfusion h
    simp only []
    by_cases hn : o.read_n ≤ 0
    · rw [read_path_close hI ev.fd o hreg hn]
      exact ⟨by simpa [List.mem_filter] using And.intro hopen hne, by simp [hne]⟩
    · rw [read_path_mod hI ev.fd o hreg (by omega)]
      exact ⟨hopen, by simp [hne]⟩
  | write =>
    have hne : fd ≠ ev.fd := by
      rcases hother with h | h | h
      · exact Ne.symm h
      · rw [hd] at h; exact Branch.noConfusion h
      · rw [hd] at h; exact Branch.noConfusion h
    simp only []
    cases hsp : o.sigpipe
    · rw [write_path_eq hI ev.fd o hreg hsp]
      exact ⟨hopen, by simp [hne]⟩
    · rw [write_path_killed epfd ev.fd o k hsp]
      exact ⟨hopen, rfl⟩
  | ignore => exact ⟨hopen, rfl⟩

/-- What `epoll_wait` guarantees is stated for the time of the call: the batch holds at
most one event per descriptor, and each can be delivered in the state in which the call
returns.  Such a batch is also deliverable event by event in the states in which the
loop handles it, so `Delivered` admits every batch `epoll_wait` can return. -/
theorem wait_contract_delivered {srv epfd : Int} (batch : List (epoll_event × Outcomes)) :
    ∀ k : Kernel, Inv srv epfd k → (batch.map (fun e => e.1.fd)).Nodup →
      (∀ e ∈ batch, delivers k e.1 = true) → Delivered srv epfd batch k := by
  induction batch with
  | nil => intro k _ _ _; trivial
  | cons a rest ih =>
    obtain ⟨ev, o⟩ := a
    intro k hI hnd hall
    have hev : delivers k ev = true := hall (ev, o) (List.mem_cons_self _ _)
    have hreg := delivers_reg hev
    simp only [List.map_cons, List.nodup_cons, List.mem_map, not_exists, not_and] at hnd
    refine ⟨hev, ih _ (inv_handle_event hI ev o hreg) hnd.2 ?_⟩
    intro e he
    have hde : delivers k e.1 = true := hall e (List.mem_cons_of_mem _ he)
    have hne : ev.fd ≠ e.1.fd := fun h => hnd.1 e he h.symm
    have hkeep := (other_event_keeps hI (hI.reg_open e.1.fd (delivers_reg hde)).1 ev o hreg
      (Or.inl hne)).2
    unfold delivers at hde ⊢
    rw [hkeep]
    exact hde

/-- While `fd` is open and registered for `EPOLLOUT | EPOLLET`, whatever events are
delivered, no `read` is issued on `fd` before a `send` on `fd`. -/
theorem pending_write_first {srv epfd : Int} {fd : Int} (hfd : fd ≠ srv)
    (later : List (epoll_event × Outcomes)) :
    ∀ k : Kernel, Inv srv epfd k → fd ∈ k.openFds →
      k.reg fd = some (EPOLLOUT ||| EPOLLET) → Delivered srv epfd later k →
      ∃ t, (for_events srv epfd later k).trace = k.trace ++ t ∧ ReadAfterSend fd t := by
  induction later with
  | nil =>
    intro k _ _ _ _
    refine ⟨[], by simp [for_events], ?_⟩
    intro front c back heq _
    exact absurd heq (by simp)
  | cons a rest ih =>
    obtain ⟨ev, o⟩ := a
    intro k hI hopen hreg hd
    obtain ⟨hdel, hrest⟩ := hd
    have hr := delivers_reg hdel
    obtain ⟨seg, hseg, hreads, hsend⟩ := handle_event_seg srv epfd ev o k
    have hnoread : ∀ n, Syscall.read fd n ∉ seg := by
      intro n hmem
      obtain ⟨hx, hdisp⟩ := hreads fd n hmem
      have hin := delivers_no_in hdel (hx ▸ hreg)
      have hsrv : ¬ ev.fd = srv := hx ▸ hfd
      simp [spec_dispatch, hsrv, hin] at hdisp
      split_ifs at hdisp
    by_cases hw : ev.fd = fd ∧ spec_dispatch srv ev = .write
    · obtain ⟨t, ht⟩ := for_events_trace srv epfd rest (handle_event srv epfd ev o k)
      refine ⟨seg ++ t, by simp only [for_events, ht, hseg, List.append_assoc], ?_⟩
      exact readAfterSend_of_send t hnoread (hw.1 ▸ hsend hw.2)
    · have hother : ev.fd ≠ fd ∨ spec_dispatch srv ev = .ignore ∨
          spec_dispatch srv ev = .accept := by
        by_cases hx : ev.fd = fd
        · right
          have hin := delivers_no_in hdel (hx ▸ hreg)
          have hnw : spec_dispatch srv ev ≠ .write := fun h => hw ⟨hx, h⟩
          unfold spec_dispatch at hnw ⊢
          split_ifs at hnw ⊢ <;> simp_all
        · exact Or.inl hx
      obtain ⟨ho', hr'⟩ := other_event_keeps hI hopen ev o hr hother
      obtain ⟨t, ht, hts⟩ := ih (handle_event srv epfd ev o k) (inv_handle_event hI ev o hr) ho'
        (hr'.trans hreg) hrest
      refine ⟨seg ++ t, by simp only [for_events, ht, hseg, List.append_assoc], ?_⟩
      exact readAfterSend_append hnoread hts

/-- C3. A readable event on a registered client descriptor whose `read` returns `n > 0`
and whose `EPOLL_CTL_MOD` succeeds: the connection stays open and its registered interest
becomes exactly `EPOLLOUT | EPOLLET`, a mask without `EPOLLIN`.  Then, for every sequence
of later events that the epoll instance can deliver (for any descriptors, with any
answers), every `read` issued on this descriptor is preceded by a `send` on it; and the
first later event on it that carries `EPOLLOUT` runs the write branch. -/
theorem read_then_write_first (srv epfd : Int) (k : Kernel) (hr : Reachable srv epfd k)
    (ev : epoll_event) (o : Outcomes) (hreg : k.reg ev.fd ≠ none) (hfd : ev.fd ≠ srv)
    (hin : ev.events &&& EPOLLIN ≠ 0) (hn : 0 < o.read_n) (hok : o.ctl_ok = true) :
    ev.fd ∈ (handle_event srv epfd ev o k).openFds ∧
      (handle_event srv epfd ev o k).reg ev.fd = some (EPOLLOUT ||| EPOLLET) ∧
      (EPOLLOUT ||| EPOLLET) &&& EPOLLIN = 0 ∧
      (∀ later, Delivered srv epfd later (handle_event srv epfd ev o k) →
        ∀ front c back,
          (for_events srv epfd later (handle_event srv epfd ev o k)).trace =
            (handle_event srv epfd ev o k).trace ++ front ++ c :: back →
          (∃ n, c = Syscall.read ev.fd n) →
          ∃ buf len, Syscall.send ev.fd buf len ∈ front) ∧
      (∀ flags, delivers (handle_event srv epfd ev o k) ⟨flags, ev.fd⟩ = true →
        spec_dispatch srv ⟨flags, ev.fd⟩ = .write ∨
          spec_dispatch srv ⟨flags, ev.fd⟩ = .ignore) := by
  have hI := (reachable_inv hr)
  have hI1 := inv_handle_event hI ev o hreg
  have hk : handle_event srv epfd ev o k = read_path epfd ev.fd o k := by
    simp [handle_event, hfd, hin]
  have hopen : ev.fd ∈ (handle_event srv epfd ev o k).openFds := by
    rw [hk, read_path_mod hI ev.fd o hreg hn]
    exact (hI.reg_open ev.fd hreg).1
  have hreg1 : (handle_event srv epfd ev o k).reg ev.fd = some (EPOLLOUT ||| EPOLLET) := by
    rw [hk, read_path_mod hI ev.fd o hreg hn]
    simp [hok]
  refine ⟨hopen, hreg1, by decide, ?_, ?_⟩
  · intro later hd front c back heq hc
    obtain ⟨t, ht, hts⟩ := pending_write_first hfd later _ hI1 hopen hreg1 hd
    rw [ht, List.append_assoc] at heq
    exact hts front c back (List.append_cancel_left heq) hc
  · intro flags hdel
    have h0 := delivers_no_in hdel hreg1
    have h0' : flags &&& EPOLLIN = 0 := h0
    unfold spec_dispatch
    simp only [hfd, h0', if_false, ne_eq, not_true_eq_false]
    split_ifs <;> simp

/-- C3 at a concrete run: client 5 has sent a request; the epoll instance then delivers
a writable and, after it, a readable event for 5.  The second `read` on 5 comes after
the `send`. -/
theorem read_then_write_first_witness :
    (5 : Int) ∈ kRequested.openFds ∧ kRequested.reg 5 = some (EPOLLOUT ||| EPOLLET) ∧
      (for_events 3 4 [(⟨EPOLLOUT, 5⟩, oAllOk), (⟨EPOLLIN, 5⟩, oAllOk)] kRequested).trace =
        kRequested.trace ++
          [.send 5 "HTTP/1.1 200 OK\r\n" 17,
            .epoll_ctl 4 EPOLL_CTL_MOD 5 (some (EPOLLIN ||| EPOLLET))] ++
          .read 5 10239 :: [.epoll_ctl 4 EPOLL_CTL_MOD 5 (some (EPOLLOUT ||| EPOLLET))] ∧
      (∃ buf len, Syscall.send 5 buf len ∈
        [Syscall.send 5 "HTTP/1.1 200 OK\r\n" 17,
          Syscall.epoll_ctl 4 EPOLL_CTL_MOD 5 (some (EPOLLIN ||| EPOLLET))]) :=
  have h := read_then_write_first 3 4 kAccepted reachable_kAccepted ⟨EPOLLIN, 5⟩ oAllOk
    (by decide) (by decide) (by decide) (by decide) rfl
  have hrun : (for_events 3 4 [(⟨EPOLLOUT, 5⟩, oAllOk), (⟨EPOLLIN, 5⟩, oAllOk)]
      kRequested).trace = kRequested.trace ++
        [.send 5 "HTTP/1.1 200 OK\r\n" 17,
          .epoll_ctl 4 EPOLL_CTL_MOD 5 (some (EPOLLIN ||| EPOLLET))] ++
        .read 5 10239 :: [.epoll_ctl 4 EPOLL_CTL_MOD 5 (some (EPOLLOUT ||| EPOLLET))] := by
    decide
  ⟨h.1, h.2.1, hrun,
    h.2.2.2.1 [(⟨EPOLLOUT, 5⟩, oAllOk), (⟨EPOLLIN, 5⟩, oAllOk)]
      ⟨by decide, by decide, trivial⟩ _ _ _ hrun ⟨10239, rfl⟩⟩

/-! ## C5: the listening socket stays registered -/

theorem undisturbed_log {srv epfd : Int} {k : Kernel} (h : Undisturbed srv epfd k)
    (c : Syscall) (hc : Syscall.disturbs srv c = false) : Undisturbed srv epfd (k.log c) := by
  refine ⟨inv_with_trace h.1 _, ?_⟩
  intro x hx
  rcases List.mem_append.1 hx with h1 | h1
  · exact h.2 x h1
  · rw [List.mem_singleton.1 h1]; exact hc

theorem undisturbed_handle_event {srv epfd : Int} {k : Kernel} (h : Undisturbed srv epfd k)
    (ev : epoll_event) (o : Outcomes) (hreg : k.reg ev.fd ≠ none) :
    Undisturbed srv epfd (handle_event srv epfd ev o k) := by
  refine ⟨inv_handle_event h.1 ev o hreg, ?_⟩
  have hI := h.1
  have hold := h.2
  rw [dispatch_core srv epfd ev o k]
  have hmem : ∀ (seg : List Syscall), (∀ c ∈ seg, Syscall.disturbs srv c = false) →
      ∀ c ∈ k.trace ++ seg, Syscall.disturbs srv c = false := by
    intro seg hseg c hc
    rcases List.mem_append.1 hc with h1 | h1
    · exact hold c h1
    · exact hseg c h1
  cases hd : spec_dispatch srv ev with
  | accept =>
    simp only []
    cases hf : k.fresh o.accept_fd
    · rw [accept_path_fail srv epfd o k hf]
      exact hmem _ (by simp [Syscall.disturbs])
    · have hcs : o.accept_fd ≠ srv := (inv_fresh_facts hI hf).2.2.1
      by_cases hs : o.setfl = -1
      · rw [accept_path_setfl_fail hI o hf hs]
        exact hmem _ (by simp [Syscall.disturbs, hcs])
      · cases hok : o.ctl_ok
        · rw [accept_path_add_fail hI o hf hs hok]
          exact hmem _ (by simp [Syscall.disturbs, hcs])
        · rw [accept_path_ok hI o hf hs hok]
          exact hmem _ (by simp [Syscall.disturbs, hcs])
  | read =>
    have hne : ev.fd ≠ srv := by
      intro hh
      simp [spec_dispatch, hh] at hd
    simp only []
    by_cases hn : o.read_n ≤ 0
    · rw [read_path_close hI ev.fd o hreg hn]
      exact hmem _ (by simp [Syscall.disturbs, hne])
    · rw [read_path_mod hI ev.fd o hreg (by omega)]
      exact hmem _ (by simp [Syscall.disturbs, hne])
  | write =>
    have hne : ev.fd ≠ srv := by
      intro hh
      simp [spec_dispatch, hh] at hd
    simp only []
    cases hsp : o.sigpipe
    · rw [write_path_eq hI ev.fd o hreg hsp]
      exact hmem _ (by simp [Syscall.disturbs, hne])
    · rw [write_path_killed epfd ev.fd o k hsp]
      exact hmem _ (by simp [Syscall.disturbs])
  | ignore => exact hold

theorem undisturbed_for_events {srv epfd : Int} (l : List (epoll_event × Outcomes)) :
    ∀ k : Kernel, Undisturbed srv epfd k → Delivered srv epfd l k →
      Undisturbed srv epfd (for_events srv epfd l k) := by
  induction l with
  | nil => intro k h _; exact h
  | cons a l ih =>
    obtain ⟨ev, o⟩ := a
    intro k h hd
    exact ih _ (undisturbed_handle_event h ev o (delivers_reg hd.1)) hd.2

theorem wait_state (epfd : Int) (n : Nat) (w : WaitOutcome) (k : Kernel) :
    (sys_epoll_wait epfd n w k).2.2 = k.log (.epoll_wait epfd n) := by
  unfold sys_epoll_wait
  cases w with
  | none => rfl
  | some evs => simp only []; split_ifs <;> rfl

theorem wait_take (epfd : Int) (n : Nat) (w : WaitOutcome) (k : Kernel)
    (h : (sys_epoll_wait epfd n w k).1 ≠ -1) :
    (sys_epoll_wait epfd n w k).2.1.take (sys_epoll_wait epfd n w k).1.toNat =
      (sys_epoll_wait epfd n w k).2.1 := by
  unfold sys_epoll_wait at h ⊢
  cases w with
  | none => simp at h
  | some evs =>
    simp only [] at h ⊢
    split_ifs at h ⊢ with he
    · simp only [Int.toNat_ofNat, List.take_length]
    · simp at h

theorem undisturbed_epoll_loop {srv epfd : Int} (ws : List WaitOutcome) :
    ∀ k : Kernel, Undisturbed srv epfd k → Scheduled srv epfd ws k →
      Undisturbed srv epfd (epoll_loop srv epfd ws k).2 := by
  induction ws with
  | nil => intro k h _; exact h
  | cons w ws ih =>
    intro k h hs
    have hlog : Undisturbed srv epfd (sys_epoll_wait epfd MAX_EVENTS w k).2.2 := by
      rw [wait_state]
      exact undisturbed_log h _ rfl
    unfold MCP.epoll_loop
    simp only []
    split_ifs with h1
    · exact hlog
    · obtain ⟨hd, hrest⟩ := hs h1
      rw [wait_take epfd MAX_EVENTS w k h1]
      exact ih _ (undisturbed_for_events _ _ hlog hd) hrest

/-- C5. For every schedule of `epoll_wait` answers (batches of deliverable events, any
answers of the operating system to the calls made while they are handled, `accept`
failures included), run by `epoll_loop` from the initial state: the listening socket is
still open and still registered with `EPOLLIN`, a mask without `EPOLLET`, and no `close`,
`EPOLL_CTL_DEL` or `EPOLL_CTL_MOD` was issued with the listening descriptor as target.
An event on the listening descriptor whose `accept` fails changes neither the interest
list nor the open descriptors, in any state. -/
theorem listening_socket_stays (srv epfd : Int) (hne : srv ≠ epfd) (ws : List WaitOutcome)
    (hs : Scheduled srv epfd ws (initial srv epfd)) :
    srv ∈ (epoll_loop srv epfd ws (initial srv epfd)).2.openFds ∧
      (epoll_loop srv epfd ws (initial srv epfd)).2.reg srv = some EPOLLIN ∧
      EPOLLIN &&& EPOLLET = 0 ∧
      (∀ c ∈ (epoll_loop srv epfd ws (initial srv epfd)).2.trace,
        Syscall.disturbs srv c = false) ∧
      (∀ (k : Kernel) (ev : epoll_event) (o : Outcomes), ev.fd = srv →
        (sys_accept srv o.accept_fd k).1 = -1 →
        (handle_event srv epfd ev o k).reg = k.reg ∧
          (handle_event srv epfd ev o k).openFds = k.openFds) := by
  have h0 : Undisturbed srv epfd (initial srv epfd) :=
    ⟨inv_initial hne, by simp [initial]⟩
  have h := undisturbed_epoll_loop ws _ h0 hs
  refine ⟨h.1.srv_open, h.1.srv_reg, by decide, h.2, ?_⟩
  intro k ev o hfd hacc
  have hf : k.fresh o.accept_fd = false := by
    cases hfr : k.fresh o.accept_fd
    · rfl
    · have h0 := ((fresh_iff k o.accept_fd).1 hfr).1
      simp only [sys_accept, hfr, if_true] at hacc
      omega
  have hk : handle_event srv epfd ev o k = accept_path srv epfd o k := by
    simp [handle_event, hfd]
  rw [hk, accept_path_fail srv epfd o k hf]
  exact ⟨rfl, rfl⟩

theorem sampleSchedule_ok : Scheduled 3 4 sampleSchedule (initial 3 4) :=
  fun _ => ⟨⟨by decide, trivial⟩,
    fun _ => ⟨⟨by decide, by decide, trivial⟩, fun h => absurd rfl h⟩⟩

/-- C5 on the sample schedule, with listening socket 3 and epoll instance 4. -/
theorem listening_socket_stays_witness :
    (3 : Int) ∈ (epoll_loop 3 4 sampleSchedule (initial 3 4)).2.openFds ∧
      (epoll_loop 3 4 sampleSchedule (initial 3 4)).2.reg 3 = some EPOLLIN ∧
      Syscall.close 5 ∈ (epoll_loop 3 4 sampleSchedule (initial 3 4)).2.trace ∧
      Syscall.disturbs 3 (Syscall.close 5) = false ∧
      (handle_event 3 4 ⟨EPOLLIN, 3⟩ oAcceptFails kAccepted).reg = kAccepted.reg ∧
      (handle_event 3 4 ⟨EPOLLIN, 3⟩ oAcceptFails kAccepted).openFds = kAccepted.openFds :=
  have h := listening_socket_stays 3 4 (by decide) sampleSchedule sampleSchedule_ok
  have hc : Syscall.close 5 ∈ (epoll_loop 3 4 sampleSchedule (initial 3 4)).2.trace := by
    decide
  ⟨h.1, h.2.1, hc, h.2.2.2.1 _ hc,
    (h.2.2.2.2 kAccepted ⟨EPOLLIN, 3⟩ oAcceptFails rfl (by decide)).1,
    (h.2.2.2.2 kAccepted ⟨EPOLLIN, 3⟩ oAcceptFails rfl (by decide)).2⟩

/-! ## Set-up: `create_nonblocking_server_socket` and `main` -/

/-- A successful set-up ends in the state `initial`: after socket creation and
registration, the open descriptors, the epoll instance and the interest list are those
of `initial`. -/
theorem setup_gives_initial (o : SetupOutcomes) (h0 : 0 ≤ o.socket_fd) (h1 : o.setfl ≠ -1)
    (h2 : o.setsockopt = 0) (h3 : 0 ≤ o.epoll_fd) (h4 : o.epoll_fd ≠ o.socket_fd)
    (h5 : o.ctl_ok = true) :
    (create_nonblocking_server_socket o Kernel.boot).1 = o.socket_fd ∧
      (register_server_epoll_fd o.socket_fd o
        (create_nonblocking_server_socket o Kernel.boot).2).1 = o.epoll_fd ∧
      (register_server_epoll_fd o.socket_fd o
        (create_nonblocking_server_socket o Kernel.boot).2).2.openFds =
          (initial o.socket_fd o.epoll_fd).openFds ∧
      (register_server_epoll_fd o.socket_fd o
        (create_nonblocking_server_socket o Kernel.boot).2).2.epoll =
          (initial o.socket_fd o.epoll_fd).epoll ∧
      (register_server_epoll_fd o.socket_fd o
        (create_nonblocking_server_socket o Kernel.boot).2).2.reg =
          (initial o.socket_fd o.epoll_fd).reg := by
  have hs : o.socket_fd ≠ -1 := by omega
  have he : o.epoll_fd ≠ -1 := by omega
  have hne : ¬ o.socket_fd = o.epoll_fd := fun h => h4 h.symm
  have hc : (create_nonblocking_server_socket o Kernel.boot) =
      (o.socket_fd, { Kernel.boot with
        openFds := [o.socket_fd]
        sockopts := [(o.socket_fd, SO_REUSEADDR ||| SO_REUSEPORT)]
        trace := [.socket AF_INET SOCK_STREAM 0, .fcntl_getfl o.socket_fd,
          .fcntl_setfl o.socket_fd (Int.lor o.getfl O_NONBLOCK),
          .setsockopt o.socket_fd SOL_SOCKET (SO_REUSEADDR ||| SO_REUSEPORT) 1] }) := by
    simp [create_nonblocking_server_socket, sys_socket, Kernel.fresh, Kernel.boot, h0, hs,
      sys_fcntl_getfl, sys_fcntl_setfl, h1, sys_setsockopt, h2, Kernel.log]
  rw [hc]
  simp [register_server_epoll_fd, sys_epoll_create1, Kernel.fresh, Kernel.boot, h3, h4, he,
    sys_epoll_ctl, Kernel.log, hne, h5, Kernel.setReg, initial]

/-- C8, at the failing input.  When `setsockopt` fails, the function returns -3 with
descriptor 3 still open and no `close` issued, whereas the `fcntl` failure path returns -2
after closing the descriptor. -/
theorem setsockopt_failure_leaks :
    (create_nonblocking_server_socket sSetsockoptFails Kernel.boot).1 = -3 ∧
      (3 : Int) ∈ (create_nonblocking_server_socket sSetsockoptFails Kernel.boot).2.openFds ∧
      Syscall.close 3 ∉ (create_nonblocking_server_socket sSetsockoptFails Kernel.boot).2.trace ∧
      (create_nonblocking_server_socket sFcntlFails Kernel.boot).1 = -2 ∧
      (3 : Int) ∉ (create_nonblocking_server_socket sFcntlFails Kernel.boot).2.openFds ∧
      Syscall.close 3 ∈ (create_nonblocking_server_socket sFcntlFails Kernel.boot).2.trace := by
  decide

/-- C9, at the failing inputs.  When `epoll_create1`, the registration of the listening
socket, `bind` or `listen` fails, `main` still calls `epoll_wait`, and once the loop is
left its exit status is 0, not a negative code.  The codes `start_server` returns for a
`bind` and a `listen` failure, -1 and -2, are also the codes of a `socket` and an `fcntl`
failure. -/
theorem setup_failure_not_fatal :
    ((main sEpollCreateFails [none] Kernel.boot).1 = some 0 ∧
      Syscall.epoll_wait (-1) MAX_EVENTS ∈ (main sEpollCreateFails [none] Kernel.boot).2.trace) ∧
    ((main sRegisterFails [none] Kernel.boot).1 = some 0 ∧
      Syscall.epoll_wait (-1) MAX_EVENTS ∈ (main sRegisterFails [none] Kernel.boot).2.trace) ∧
    ((main sBindFails [none] Kernel.boot).1 = some 0 ∧
      Syscall.epoll_wait 4 MAX_EVENTS ∈ (main sBindFails [none] Kernel.boot).2.trace) ∧
    ((main sListenFails [none] Kernel.boot).1 = some 0 ∧
      Syscall.epoll_wait 4 MAX_EVENTS ∈ (main sListenFails [none] Kernel.boot).2.trace) ∧
    (start_server 3 7181 sBindFails Kernel.boot).1 = -1 ∧
    (start_server 3 7181 sListenFails Kernel.boot).1 = -2 ∧
    (create_nonblocking_server_socket { sAllOk with socket_fd := -1 } Kernel.boot).1 = -1 ∧
    (create_nonblocking_server_socket sFcntlFails Kernel.boot).1 = -2 := by
  decide

/-- C10, at the failing input.  With `SO_REUSEADDR = 2` and `SO_REUSEPORT = 15` the
option name the code passes, `SO_REUSEADDR | SO_REUSEPORT`, is 15: after a successful
call only option 15 is switched on for the returned socket, option 2 is not. -/
theorem reuseaddr_not_enabled :
    SO_REUSEADDR ||| SO_REUSEPORT = SO_REUSEPORT ∧
      (create_nonblocking_server_socket sAllOk Kernel.boot).1 = 3 ∧
      (create_nonblocking_server_socket sAllOk Kernel.boot).2.sockopts = [(3, SO_REUSEPORT)] ∧
      ((3 : Int), SO_REUSEADDR) ∉ (create_nonblocking_server_socket sAllOk Kernel.boot).2.sockopts := by
  decide

end MCP
